import Mathlib

/-!
Verification of the MeetMemo backend (the refactored v2 service layer under
`src/backend`: the `api/v1` routers, `services`, `repositories`, `database.py`
and `utils`).

Modelling conventions (shallow embedding):
* Python numbers that are floats in the source (segment times) are modelled as
  rationals; Python ints as `Int`/`Nat`.
* Python strings are Lean `String`s; where character-level reasoning is needed
  (the HTTP Range parser) functions work on `List Char` (`String.data`).
* The filesystem is modelled per directory: a directory is a list of entry
  names (entries are unique, so deleting an entry filters it out), or an
  association list from entry name to content where content matters.
* The PostgreSQL job store is a list of rows, newest first (`created_at`
  descending), so `ORDER BY created_at DESC LIMIT 1` is `List.find?`.
* `HTTPException(status_code = n)` is `Except.error n`; background-task
  enqueueing (`BackgroundTasks.add_task`) is returned as an explicit list of
  pending tasks.
-/

namespace MeetMemo

/-! ## Python string primitives, modelled over `String.data` so that every
definition reduces inside the kernel. -/

/-- Models Python `str.strip()`: drop leading and trailing whitespace. -/
def pyStrip (s : String) : String :=
  String.mk
    (((s.data.dropWhile Char.isWhitespace).reverse.dropWhile
      Char.isWhitespace).reverse)

/-- Models Python `str.lower()` (ASCII). -/
def pyLower (s : String) : String :=
  String.mk (s.data.map Char.toLower)

/-- Models Python slicing `s[:n]`. -/
def strTake (s : String) (n : ℕ) : String :=
  String.mk (s.data.take n)

/-- Models Python `str.endswith(suffix)`. -/
def strEndsWith (s suffix : String) : Bool :=
  suffix.data.isSuffixOf s.data

/-- Models Python `str.split(sep)` for a one-character separator. -/
def splitOnChar (sep : Char) : List Char → List (List Char)
  | [] => [[]]
  | c :: rest =>
    if c = sep then [] :: splitOnChar sep rest
    else
      match splitOnChar sep rest with
      | h :: t => (c :: h) :: t
      | [] => [[c]]

/-! ## Alignment engine: the per-segment loop of `AlignmentService.align`
(`src/backend/services/alignment_service.py`, lines 68-99). -/

/-- An ASR segment as stored in `transcription_data["segments"]`.  The source's
`end` field is called `stop` here (`end` is reserved in Lean). -/
structure ASRSegment where
  start : ℚ
  stop : ℚ
  text : String
deriving DecidableEq

/-- A diarization turn as stored in `diarization_data["segments"]`. -/
structure SpeakerTurn where
  start : ℚ
  stop : ℚ
  speaker : String
deriving DecidableEq

/-- One record of the aligned transcript that the service appends to
`aligned_transcript` (speaker, trimmed text, times rendered to two decimals). -/
structure AlignedSegment where
  speaker : String
  text : String
  start : String
  stop : String
deriving DecidableEq

/-- Round a rational to the nearest integer, ties to even: the rounding that
Python's `f"{x:.2f}"` applies to the scaled value. -/
def roundHalfEven (x : ℚ) : ℤ :=
  let f := ⌊x⌋
  if x - f < 1/2 then f
  else if 1/2 < x - f then f + 1
  else if f % 2 = 0 then f else f + 1

/-- Models the f-string `f"{x:.2f}"` applied to a time value. -/
def formatTwoDecimals (x : ℚ) : String :=
  let n := roundHalfEven (x * 100)
  let m := n.natAbs
  (if n < 0 then "-" else "") ++ toString (m / 100) ++ "." ++
    (if m % 100 < 10 then "0" else "") ++ toString (m % 100)

/-- The overlap computed inside the speaker loop:
`max(0, min(seg_end, spk_end) - max(seg_start, spk_start))`. -/
def overlap (segStart segStop : ℚ) (t : SpeakerTurn) : ℚ :=
  max 0 (min segStop t.stop - max segStart t.start)

/-- One iteration of the speaker loop: replace the current `(speaker,
max_overlap)` accumulator whenever this turn's overlap strictly exceeds it
(`if overlap > max_overlap`). -/
def pickStep (segStart segStop : ℚ) (acc : String × ℚ) (t : SpeakerTurn) :
    String × ℚ :=
  let ov := overlap segStart segStop t
  if acc.2 < ov then (t.speaker, ov) else acc

/-- The complete speaker loop for one ASR segment, starting from the sentinel
`("SPEAKER_00", 0)`. -/
def pickSpeaker (segStart segStop : ℚ) (turns : List SpeakerTurn) :
    String × ℚ :=
  turns.foldl (pickStep segStart segStop) ("SPEAKER_00", 0)

/-- The aligned record built for one ASR segment (`text.strip()` and the two
`:.2f` renderings). -/
def alignOne (turns : List SpeakerTurn) (s : ASRSegment) : AlignedSegment :=
  { speaker := (pickSpeaker s.start s.stop turns).1
    text := pyStrip s.text
    start := formatTwoDecimals s.start
    stop := formatTwoDecimals s.stop }

/-- The pure core of `AlignmentService.align`: the `for text_seg in
text_segments` loop producing `aligned_transcript` in ASR order. -/
def alignSegments (segs : List ASRSegment) (turns : List SpeakerTurn) :
    List AlignedSegment :=
  segs.map (alignOne turns)

/-- Characterization of the speaker loop: starting from any accumulator, the
fold either leaves the accumulator unchanged (when nothing strictly beats it)
or returns the first turn that reaches the maximal overlap, which strictly
beats everything before it and is not beaten by anything after it. -/
lemma pickStep_foldl_spec (a b : ℚ) (turns : List SpeakerTurn) :
    ∀ sp mo,
      (turns.foldl (pickStep a b) (sp, mo) = (sp, mo) ∧
        ∀ u ∈ turns, overlap a b u ≤ mo) ∨
      (∃ pre t post, turns = pre ++ t :: post ∧
        turns.foldl (pickStep a b) (sp, mo) = (t.speaker, overlap a b t) ∧
        mo < overlap a b t ∧
        (∀ u ∈ pre, overlap a b u < overlap a b t) ∧
        (∀ u ∈ post, overlap a b u ≤ overlap a b t)) := by
  induction turns with
  | nil =>
    intro sp mo
    exact Or.inl ⟨rfl, by simp⟩
  | cons t rest ih =>
    intro sp mo
    by_cases h : mo < overlap a b t
    · have hstep : pickStep a b (sp, mo) t = (t.speaker, overlap a b t) := by
        simp [pickStep, h]
      rcases ih t.speaker (overlap a b t) with ⟨heq, hall⟩ |
        ⟨pre, t', post, hsplit, heq, hlt, hpre, hpost⟩
      · refine Or.inr ⟨[], t, rest, rfl, ?_, h, by simp, hall⟩
        simpa [hstep] using heq
      · refine Or.inr ⟨t :: pre, t', post, by rw [hsplit]; rfl, ?_, ?_, ?_, hpost⟩
        · simpa [hstep] using heq
        · exact lt_trans h hlt
        · intro u hu
          rcases List.mem_cons.mp hu with rfl | hu
          · exact hlt
          · exact hpre u hu
    · have hstep : pickStep a b (sp, mo) t = (sp, mo) := by
        simp [pickStep, h]
      rcases ih sp mo with ⟨heq, hall⟩ |
        ⟨pre, t', post, hsplit, heq, hlt, hpre, hpost⟩
      · refine Or.inl ⟨?_, ?_⟩
        · simpa [hstep] using heq
        · intro u hu
          rcases List.mem_cons.mp hu with rfl | hu
          · exact not_lt.mp h
          · exact hall u hu
      · refine Or.inr ⟨t :: pre, t', post, by rw [hsplit]; rfl, ?_, hlt, ?_, hpost⟩
        · simpa [hstep] using heq
        · intro u hu
          rcases List.mem_cons.mp hu with rfl | hu
          · exact lt_of_le_of_lt (not_lt.mp h) hlt
          · exact hpre u hu

/-- If no turn has positive overlap with the segment, the loop keeps the
sentinel. -/
lemma pickSpeaker_sentinel (a b : ℚ) (turns : List SpeakerTurn)
    (h : ∀ t ∈ turns, overlap a b t ≤ 0) :
    pickSpeaker a b turns = ("SPEAKER_00", 0) := by
  rcases pickStep_foldl_spec a b turns "SPEAKER_00" 0 with ⟨heq, _⟩ |
    ⟨pre, t, post, hsplit, _, hlt, _, _⟩
  · exact heq
  · exact absurd hlt (not_lt.mpr (h t (hsplit ▸ List.mem_append_right _
      (List.mem_cons_self _ _))))

/-- If some turn has positive overlap, the loop returns the speaker of a turn
of maximal overlap; when the turns are time-ordered that turn has the earliest
start among the maximizers. -/
lemma pickSpeaker_winner (a b : ℚ) (turns : List SpeakerTurn)
    (hsorted : turns.Pairwise (fun u v => u.start ≤ v.start))
    (h : ∃ t ∈ turns, 0 < overlap a b t) :
    ∃ t ∈ turns, (pickSpeaker a b turns).1 = t.speaker ∧
      0 < overlap a b t ∧
      (∀ u ∈ turns, overlap a b u ≤ overlap a b t) ∧
      (∀ u ∈ turns, overlap a b u = overlap a b t → t.start ≤ u.start) := by
  rcases pickStep_foldl_spec a b turns "SPEAKER_00" 0 with ⟨_, hall⟩ |
    ⟨pre, t, post, hsplit, heq, hlt, hpre, hpost⟩
  · rcases h with ⟨t, ht, hpos⟩
    exact absurd hpos (not_lt.mpr (hall t ht))
  · have htmem : t ∈ turns := hsplit ▸ List.mem_append_right _
      (List.mem_cons_self _ _)
    refine ⟨t, htmem, by rw [pickSpeaker, heq], hlt, ?_, ?_⟩
    · intro u hu
      rw [hsplit] at hu
      rcases List.mem_append.mp hu with hu | hu
      · exact le_of_lt (hpre u hu)
      · rcases List.mem_cons.mp hu with rfl | hu
        · exact le_refl _
        · exact hpost u hu
    · intro u hu hmax
      rw [hsplit] at hu
      rcases List.mem_append.mp hu with hu | hu
      · exact absurd hmax (ne_of_lt (hpre u hu))
      · rcases List.mem_cons.mp hu with rfl | hu
        · exact le_refl _
        · have := hsplit ▸ hsorted
          have hp := (List.pairwise_append.mp this).2.1
          exact (List.pairwise_cons.mp hp).1 u hu

/-- **C3.**  For time-ordered ASR segments and time-ordered speaker turns, the
alignment loop emits exactly one record per ASR segment in ASR order; each
record carries the trimmed ASR text and the two-decimal renderings of the ASR
times; its speaker is the label of a positive-overlap turn of maximal overlap
whose start is earliest among the maximizers, or the sentinel `SPEAKER_00`
when no turn has positive overlap. -/
theorem c3_alignment_emits_per_segment_with_max_overlap_speaker
    (segs : List ASRSegment) (turns : List SpeakerTurn)
    (hsegs : segs.Pairwise (fun u v => u.start ≤ v.start))
    (hturns : turns.Pairwise (fun u v => u.start ≤ v.start)) :
    (alignSegments segs turns).length = segs.length ∧
    ∀ (i : ℕ) (s : ASRSegment) (r : AlignedSegment),
      segs[i]? = some s → (alignSegments segs turns)[i]? = some r →
      r.text = pyStrip s.text ∧
      r.start = formatTwoDecimals s.start ∧
      r.stop = formatTwoDecimals s.stop ∧
      ((∀ t ∈ turns, overlap s.start s.stop t ≤ 0) →
        r.speaker = "SPEAKER_00") ∧
      ((∃ t ∈ turns, 0 < overlap s.start s.stop t) →
        ∃ t ∈ turns, r.speaker = t.speaker ∧
          0 < overlap s.start s.stop t ∧
          (∀ u ∈ turns, overlap s.start s.stop u ≤ overlap s.start s.stop t) ∧
          (∀ u ∈ turns, overlap s.start s.stop u = overlap s.start s.stop t →
            t.start ≤ u.start)) := by
  constructor
  · simp [alignSegments]
  · intro i s r hs hr
    have : (alignSegments segs turns)[i]? = some (alignOne turns s) := by
      simp [alignSegments, List.getElem?_map, hs]
    have hreq : r = alignOne turns s := by
      rw [this] at hr
      exact (Option.some_inj.mp hr).symm
    subst hreq
    refine ⟨rfl, rfl, rfl, ?_, ?_⟩
    · intro hno
      show (pickSpeaker s.start s.stop turns).1 = "SPEAKER_00"
      rw [pickSpeaker_sentinel _ _ _ hno]
    · intro hpos
      exact pickSpeaker_winner s.start s.stop turns hturns hpos

/-- Witness for C3: the theorem applied to a concrete two-segment transcript
and a concrete two-turn diarization. -/
theorem c3_alignment_emits_per_segment_with_max_overlap_speaker_witness :
    ([⟨0, 2, " hello "⟩, ⟨2, 5, "world"⟩] : List ASRSegment).Pairwise
      (fun u v => u.start ≤ v.start) ∧
    ([⟨0, 1, "SPEAKER_01"⟩, ⟨1, 6, "SPEAKER_02"⟩] : List SpeakerTurn).Pairwise
      (fun u v => u.start ≤ v.start) ∧
    ((alignSegments [⟨0, 2, " hello "⟩, ⟨2, 5, "world"⟩]
        [⟨0, 1, "SPEAKER_01"⟩, ⟨1, 6, "SPEAKER_02"⟩]).length =
      ([⟨0, 2, " hello "⟩, ⟨2, 5, "world"⟩] : List ASRSegment).length ∧
    ∀ (i : ℕ) (s : ASRSegment) (r : AlignedSegment),
      ([⟨0, 2, " hello "⟩, ⟨2, 5, "world"⟩] : List ASRSegment)[i]? = some s →
      (alignSegments [⟨0, 2, " hello "⟩, ⟨2, 5, "world"⟩]
        [⟨0, 1, "SPEAKER_01"⟩, ⟨1, 6, "SPEAKER_02"⟩])[i]? = some r →
      r.text = pyStrip s.text ∧
      r.start = formatTwoDecimals s.start ∧
      r.stop = formatTwoDecimals s.stop ∧
      ((∀ t ∈ ([⟨0, 1, "SPEAKER_01"⟩, ⟨1, 6, "SPEAKER_02"⟩] :
          List SpeakerTurn), overlap s.start s.stop t ≤ 0) →
        r.speaker = "SPEAKER_00") ∧
      ((∃ t ∈ ([⟨0, 1, "SPEAKER_01"⟩, ⟨1, 6, "SPEAKER_02"⟩] :
          List SpeakerTurn), 0 < overlap s.start s.stop t) →
        ∃ t ∈ ([⟨0, 1, "SPEAKER_01"⟩, ⟨1, 6, "SPEAKER_02"⟩] :
          List SpeakerTurn), r.speaker = t.speaker ∧
          0 < overlap s.start s.stop t ∧
          (∀ u ∈ ([⟨0, 1, "SPEAKER_01"⟩, ⟨1, 6, "SPEAKER_02"⟩] :
            List SpeakerTurn),
            overlap s.start s.stop u ≤ overlap s.start s.stop t) ∧
          (∀ u ∈ ([⟨0, 1, "SPEAKER_01"⟩, ⟨1, 6, "SPEAKER_02"⟩] :
            List SpeakerTurn),
            overlap s.start s.stop u = overlap s.start s.stop t →
            t.start ≤ u.start))) :=
  ⟨by decide, by decide,
    c3_alignment_emits_per_segment_with_max_overlap_speaker
      [⟨0, 2, " hello "⟩, ⟨2, 5, "world"⟩]
      [⟨0, 1, "SPEAKER_01"⟩, ⟨1, 6, "SPEAKER_02"⟩] (by decide) (by decide)⟩

/-! ## Audio range streaming (`src/backend/api/v1/audio.py`) -/

/-- Value of a nonempty all-digit character list; `none` otherwise.  Together
with `pyInt?` this models Python's `int(str)` (whitespace and underscore
digit separators are not modelled). -/
def digitsVal? (cs : List Char) : Option ℕ :=
  if cs ≠ [] ∧ cs.all Char.isDigit then
    some (cs.foldl (fun a c => a * 10 + (c.toNat - '0'.toNat)) 0)
  else none

/-- Models Python `int(str)`: optional sign, then digits; `none` models the
`ValueError` branch. -/
def pyInt? : List Char → Option ℤ
  | [] => none
  | c :: rest =>
    if c = '-' then (digitsVal? rest).map (fun (n : ℕ) => -(n : ℤ))
    else if c = '+' then (digitsVal? rest).map (fun (n : ℕ) => (n : ℤ))
    else (digitsVal? (c :: rest)).map (fun (n : ℕ) => (n : ℤ))

/-- Models Python `str.split("-")`. -/
def splitDash (cs : List Char) : List (List Char) :=
  splitOnChar '-' cs

/-- Models `range_header.replace("bytes=", "")`: remove every (left-to-right,
non-overlapping) occurrence of `bytes=`. -/
def stripBytesEq : List Char → List Char
  | 'b' :: 'y' :: 't' :: 'e' :: 's' :: '=' :: rest => stripBytesEq rest
  | c :: rest => c :: stripBytesEq rest
  | [] => []

/-- The explicit `A-B` branch of the parser: `start = int(parts[0])`,
`end = int(parts[1]) if parts[1] else file_size - 1`; fewer than two parts
models the `parts[1]` `IndexError`. -/
def parseExplicitParts : List (List Char) → ℤ → Option (ℤ × ℤ)
  | p0 :: p1 :: _, file_size =>
    match pyInt? p0 with
    | some s =>
      if p1 = [] then some (s, file_size - 1)
      else (pyInt? p1).map (fun e => (s, e))
    | none => none
  | _, _ => none

/-- The `try` body of `parse_range_header` before clamping: suffix range
`-N`, open range `N-`, explicit range `A-B`; `none` models an `int()`
`ValueError` or the `parts[1]` `IndexError`. -/
def parseRangeForms (spec : List Char) (file_size : ℤ) : Option (ℤ × ℤ) :=
  if spec.head? = some '-' then
    (pyInt? (spec.drop 1)).map (fun n => (max 0 (file_size - n), file_size - 1))
  else if spec.getLast? = some '-' then
    (pyInt? spec.dropLast).map (fun n => (n, file_size - 1))
  else
    parseExplicitParts (splitDash spec) file_size

/-- `parse_range_header` (audio.py lines 75-116): strip `bytes=`, parse one of
the three forms, clamp `start = max(0, start)` and `end = min(end, file_size -
1)`, and fall back to the full range `(0, file_size - 1)` when parsing fails
or the clamped range has `start > end`. -/
def parse_range_header (header : List Char) (file_size : ℤ) : ℤ × ℤ :=
  match parseRangeForms (stripBytesEq header) file_size with
  | none => (0, file_size - 1)
  | some (s, e) =>
    let s' := max 0 s
    let e' := min e (file_size - 1)
    if s' > e' then (0, file_size - 1) else (s', e')

/-- The 1 MiB chunk size of `stream_audio_range`. -/
def CHUNK_SIZE : ℕ := 1024 * 1024

/-- The read loop of `stream_audio_range`: from position `pos`, read
`min chunk_size remaining` bytes at a time until `remaining` is exhausted or a
read returns nothing (end of file). -/
def readChunks (data : List ℕ) (pos remaining chunkSize : ℕ) : List ℕ :=
  if remaining = 0 then []
  else if h : (data.drop pos).take (min chunkSize remaining) = [] then []
  else
    (data.drop pos).take (min chunkSize remaining) ++
      readChunks data
        (pos + ((data.drop pos).take (min chunkSize remaining)).length)
        (remaining - ((data.drop pos).take (min chunkSize remaining)).length)
        chunkSize
termination_by remaining
decreasing_by
  have := List.length_pos.mpr h
  omega

/-- `stream_audio_range(file_path, start, end)`: seek to `start` and stream
`end - start + 1` bytes in 1 MiB chunks. -/
def stream_audio_range (data : List ℕ) (start stop : ℤ) : List ℕ :=
  readChunks data start.toNat (stop - start + 1).toNat CHUNK_SIZE

/-- A streaming response: `rangeStart`, `rangeStop` and `size` model the
`Content-Range: bytes <start>-<stop>/<size>` header, `contentLength` the
`Content-Length` header, `body` the streamed bytes. -/
structure RangeResponse where
  status : ℕ
  rangeStart : ℤ
  rangeStop : ℤ
  size : ℤ
  contentLength : ℤ
  body : List ℕ
deriving DecidableEq

/-- The response construction of `stream_audio` (audio.py lines 172-212) after
the job lookup and path checks: a present `Range` header always yields a 206
partial-content response over the parsed range; an absent one yields a 200
full-content response. -/
def stream_audio (data : List ℕ) (rangeHeader : Option String) :
    RangeResponse :=
  let file_size : ℤ := data.length
  match rangeHeader with
  | some h =>
    let p := parse_range_header h.data file_size
    { status := 206
      rangeStart := p.1
      rangeStop := p.2
      size := file_size
      contentLength := p.2 - p.1 + 1
      body := stream_audio_range data p.1 p.2 }
  | none =>
    { status := 200
      rangeStart := 0
      rangeStop := file_size - 1
      size := file_size
      contentLength := file_size
      body := stream_audio_range data 0 (file_size - 1) }

/-- The chunked read loop returns exactly the in-file slice
`data[pos : pos + remaining]`. -/
lemma readChunks_eq_take_drop (data : List ℕ) (chunkSize : ℕ)
    (hcs : 0 < chunkSize) :
    ∀ remaining pos,
      readChunks data pos remaining chunkSize = (data.drop pos).take remaining := by
  intro remaining
  induction remaining using Nat.strong_induction_on with
  | _ n ih =>
    intro pos
    rw [readChunks]
    by_cases h0 : n = 0
    · subst h0; simp
    · simp only [if_neg h0]
      by_cases hc : (data.drop pos).take (min chunkSize n) = []
      · rw [dif_pos hc]
        have hdrop : data.drop pos = [] := by
          rcases List.take_eq_nil_iff.mp hc with h | h
          · exfalso; omega
          · exact h
        rw [hdrop, List.take_nil]
      · rw [dif_neg hc]
        have hL : ((data.drop pos).take (min chunkSize n)).length =
            min (min chunkSize n) (data.drop pos).length := List.length_take _ _
        have hlen0 : 0 < ((data.drop pos).take (min chunkSize n)).length :=
          List.length_pos.mpr hc
        rw [ih (n - ((data.drop pos).take (min chunkSize n)).length)
          (by omega) _]
        have hdd : data.drop
            (pos + ((data.drop pos).take (min chunkSize n)).length) =
            (data.drop pos).drop
              ((data.drop pos).take (min chunkSize n)).length := by
          rw [List.drop_drop, Nat.add_comm]
        rw [hdd]
        by_cases hm : min chunkSize n ≤ (data.drop pos).length
        · have hLm : ((data.drop pos).take (min chunkSize n)).length =
              min chunkSize n := by omega
          rw [hLm]
          have : n = min chunkSize n + (n - min chunkSize n) := by omega
          conv_rhs => rw [this]
          exact (List.take_add _ _ _).symm
        · have hLm : ((data.drop pos).take (min chunkSize n)).length =
              (data.drop pos).length := by omega
          rw [hLm, List.drop_length, List.take_nil, List.append_nil,
            List.take_of_length_le (by omega),
            List.take_of_length_le (by omega)]

/-- The streamed range is the slice `data[start : stop + 1]`. -/
lemma stream_audio_range_eq (data : List ℕ) (s e : ℤ) :
    stream_audio_range data s e =
      (data.drop s.toNat).take (e - s + 1).toNat :=
  readChunks_eq_take_drop data CHUNK_SIZE (by norm_num [CHUNK_SIZE]) _ _

/-- For an in-bounds range the streamed body has exactly `stop - start + 1`
bytes. -/
lemma stream_audio_range_length (data : List ℕ) (s e : ℤ)
    (h0 : 0 ≤ s) (hse : s ≤ e) (he : e < (data.length : ℤ)) :
    ((stream_audio_range data s e).length : ℤ) = e - s + 1 := by
  rw [stream_audio_range_eq]
  simp only [List.length_take, List.length_drop]
  omega

/-- The source's fallback condition in `parse_range_header`: parsing raised
(`none`) or the clamped range came out inverted. -/
def rangeFallback (header : List Char) (file_size : ℤ) : Bool :=
  match parseRangeForms (stripBytesEq header) file_size with
  | none => true
  | some (s, e) => decide (min e (file_size - 1) < max 0 s)

/-- The response properties of a correct 206 reply over `[s, e]`: the declared
Content-Range, and a body whose length equals `e - s + 1`, which equals the
Content-Length and the Content-Range extent. -/
def serves206 (data : List ℕ) (header : List Char) (s e : ℤ) : Prop :=
  (stream_audio data (some (String.mk header))).status = 206 ∧
  (stream_audio data (some (String.mk header))).rangeStart = s ∧
  (stream_audio data (some (String.mk header))).rangeStop = e ∧
  (stream_audio data (some (String.mk header))).size = (data.length : ℤ) ∧
  (((stream_audio data (some (String.mk header))).body.length : ℤ) =
    e - s + 1) ∧
  (stream_audio data (some (String.mk header))).contentLength = e - s + 1 ∧
  (stream_audio data (some (String.mk header))).contentLength =
    (stream_audio data (some (String.mk header))).rangeStop -
      (stream_audio data (some (String.mk header))).rangeStart + 1

/-- When the parsed range is in bounds, the 206 response has consistent
Content-Range, Content-Length and body length. -/
lemma serves206_of_parse (data : List ℕ) (header : List Char) (s e : ℤ)
    (hp : parse_range_header header (data.length : ℤ) = (s, e))
    (h0 : 0 ≤ s) (hse : s ≤ e) (he : e < (data.length : ℤ)) :
    serves206 data header s e := by
  have hdata : (String.mk header).data = header := rfl
  unfold serves206
  simp only [stream_audio, hdata, hp, true_and, and_true]
  exact stream_audio_range_length data s e h0 hse he

/-- A negative-free, sign-free parse yields a nonnegative integer. -/
lemma pyInt?_nonneg (c : Char) (rest : List Char) (N : ℤ) (hc : c ≠ '-')
    (h : pyInt? (c :: rest) = some N) : 0 ≤ N := by
  rw [pyInt?, if_neg hc] at h
  by_cases h2 : c = '+'
  · rw [if_pos h2] at h
    rcases Option.map_eq_some'.mp h with ⟨n, _, hn⟩
    have hn2 : (n : ℤ) = N := hn
    omega
  · rw [if_neg h2] at h
    rcases Option.map_eq_some'.mp h with ⟨n, _, hn⟩
    have hn2 : (n : ℤ) = N := hn
    omega

/-- Splitting a separator-free string gives the singleton list. -/
lemma splitOnChar_no_sep (sep : Char) :
    ∀ l : List Char, sep ∉ l → splitOnChar sep l = [l] := by
  intro l
  induction l with
  | nil => intro _; rfl
  | cons c rest ih =>
    intro h
    have hc : c ≠ sep := fun heq => h (heq ▸ List.mem_cons_self _ _)
    have hrest : sep ∉ rest := fun hm => h (List.mem_cons_of_mem _ hm)
    rw [splitOnChar, if_neg hc, ih hrest]

/-- Splitting peels a leading separator-free prefix off at the first
separator. -/
lemma splitOnChar_append (sep : Char) :
    ∀ l r : List Char, sep ∉ l →
    splitOnChar sep (l ++ sep :: r) = l :: splitOnChar sep r := by
  intro l
  induction l with
  | nil => intro r _; rw [List.nil_append, splitOnChar, if_pos rfl]
  | cons c rest ih =>
    intro r h
    have hc : c ≠ sep := fun heq => h (heq ▸ List.mem_cons_self _ _)
    have hrest : sep ∉ rest := fun hm => h (List.mem_cons_of_mem _ hm)
    rw [List.cons_append, splitOnChar, if_neg hc, ih r hrest]

/-- `split("-")` of a dash-free string is the singleton list. -/
lemma splitDash_no_dash (l : List Char) (h : '-' ∉ l) : splitDash l = [l] :=
  splitOnChar_no_sep '-' l h

/-- `split("-")` peels a leading dash-free prefix off at the first dash. -/
lemma splitDash_append (l r : List Char) (h : '-' ∉ l) :
    splitDash (l ++ '-' :: r) = l :: splitDash r :=
  splitOnChar_append '-' l r h

/-- Parsing a suffix range `-N`. -/
lemma parse_range_header_suffix (header ds : List Char) (N size : ℤ)
    (hstrip : stripBytesEq header = '-' :: ds)
    (hN : pyInt? ds = some N) (h1 : 1 ≤ N) (hsize : 1 ≤ size) :
    parse_range_header header size = (max 0 (size - N), size - 1) := by
  have hforms : parseRangeForms (stripBytesEq header) size =
      some (max 0 (size - N), size - 1) := by
    rw [hstrip]
    unfold parseRangeForms
    rw [if_pos (by simp), List.drop_one, List.tail_cons, hN]
    rfl
  unfold parse_range_header
  rw [hforms]
  simp only [gt_iff_lt]
  rw [if_neg (by omega)]
  rw [Prod.mk.injEq]
  exact ⟨by omega, by omega⟩

/-- Parsing an open range `N-`. -/
lemma parse_range_header_open (header : List Char) (c : Char) (ds : List Char)
    (N size : ℤ)
    (hstrip : stripBytesEq header = (c :: ds) ++ ['-']) (hc : c ≠ '-')
    (hN : pyInt? (c :: ds) = some N) (hNsize : N ≤ size - 1) :
    parse_range_header header size = (N, size - 1) := by
  have h0N : 0 ≤ N := pyInt?_nonneg c ds N hc hN
  have hforms : parseRangeForms (stripBytesEq header) size =
      some (N, size - 1) := by
    rw [hstrip]
    unfold parseRangeForms
    rw [if_neg (by simp [hc]), if_pos (List.getLast?_concat _)]
    rw [List.dropLast_concat, hN]
    rfl
  unfold parse_range_header
  rw [hforms]
  simp only [gt_iff_lt]
  rw [if_neg (by omega)]
  rw [Prod.mk.injEq]
  exact ⟨by omega, by omega⟩

/-- Parsing an explicit range `A-B`. -/
lemma parse_range_header_explicit (header : List Char) (c : Char)
    (a b : List Char) (A B size : ℤ)
    (hstrip : stripBytesEq header = (c :: a) ++ '-' :: b) (hc : c ≠ '-')
    (hna : '-' ∉ (c :: a)) (hb : b ≠ []) (hnb : '-' ∉ b)
    (hA : pyInt? (c :: a) = some A) (hB : pyInt? b = some B)
    (hvalid : A ≤ min B (size - 1)) :
    parse_range_header header size = (A, min B (size - 1)) := by
  have h0A : 0 ≤ A := pyInt?_nonneg c a A hc hA
  obtain ⟨b', x, hbx⟩ : ∃ b' x, b = b' ++ [x] := by
    rcases List.eq_nil_or_concat b with rfl | ⟨b', x, h⟩
    · exact absurd rfl hb
    · exact ⟨b', x, by rw [h, List.concat_eq_append]⟩
  subst hbx
  have hx : x ≠ '-' := fun hxe =>
    hnb (hxe ▸ List.mem_append_right _ (List.mem_singleton_self _))
  have hforms : parseRangeForms (stripBytesEq header) size = some (A, B) := by
    rw [hstrip]
    unfold parseRangeForms
    rw [if_neg (by simp [hc]), if_neg ?hlast]
    case hlast =>
      have heq : (c :: a) ++ '-' :: (b' ++ [x]) =
          ((c :: a) ++ '-' :: b') ++ [x] := by simp
      rw [heq, List.getLast?_concat]
      simp [hx]
    rw [splitDash_append _ _ hna, splitDash_no_dash _ hnb,
      parseExplicitParts, hA]
    simp [hb, hB]
  unfold parse_range_header
  rw [hforms]
  simp only [gt_iff_lt]
  rw [if_neg (by omega)]
  rw [Prod.mk.injEq]
  exact ⟨by omega, by omega⟩

/-- **C9.**  For every valid Range request on a file of known size, the three
range forms parse as specified (`bytes=-N` to `(max 0 (size - N), size - 1)`,
`bytes=N-` to `(N, size - 1)`, `bytes=A-B` to `A` and `B` clamped to the file)
and the 206 response's body length equals `end - start + 1`, which equals the
Content-Length and the extent declared by Content-Range. -/
theorem c9_valid_range_parsing_and_response_extent :
    (∀ (data : List ℕ) (header ds : List Char) (N : ℤ),
      stripBytesEq header = '-' :: ds → pyInt? ds = some N →
      1 ≤ N → 1 ≤ (data.length : ℤ) →
      parse_range_header header (data.length : ℤ) =
        (max 0 ((data.length : ℤ) - N), (data.length : ℤ) - 1) ∧
      serves206 data header (max 0 ((data.length : ℤ) - N))
        ((data.length : ℤ) - 1)) ∧
    (∀ (data : List ℕ) (header : List Char) (c : Char) (ds : List Char)
      (N : ℤ),
      stripBytesEq header = (c :: ds) ++ ['-'] → c ≠ '-' →
      pyInt? (c :: ds) = some N → N ≤ (data.length : ℤ) - 1 →
      parse_range_header header (data.length : ℤ) =
        (N, (data.length : ℤ) - 1) ∧
      serves206 data header N ((data.length : ℤ) - 1)) ∧
    (∀ (data : List ℕ) (header : List Char) (c : Char) (a b : List Char)
      (A B : ℤ),
      stripBytesEq header = (c :: a) ++ '-' :: b → c ≠ '-' →
      '-' ∉ (c :: a) → b ≠ [] → '-' ∉ b →
      pyInt? (c :: a) = some A → pyInt? b = some B →
      A ≤ min B ((data.length : ℤ) - 1) →
      parse_range_header header (data.length : ℤ) =
        (A, min B ((data.length : ℤ) - 1)) ∧
      serves206 data header A (min B ((data.length : ℤ) - 1))) := by
  refine ⟨?_, ?_, ?_⟩
  · intro data header ds N hstrip hN h1 hsize
    have hp := parse_range_header_suffix header ds N _ hstrip hN h1 hsize
    exact ⟨hp, serves206_of_parse data header _ _ hp (by omega) (by omega)
      (by omega)⟩
  · intro data header c ds N hstrip hc hN hNsize
    have h0N : 0 ≤ N := pyInt?_nonneg c ds N hc hN
    have hp := parse_range_header_open header c ds N _ hstrip hc hN hNsize
    exact ⟨hp, serves206_of_parse data header _ _ hp (by omega) (by omega)
      (by omega)⟩
  · intro data header c a b A B hstrip hc hna hb hnb hA hB hvalid
    have h0A : 0 ≤ A := pyInt?_nonneg c a A hc hA
    have hp := parse_range_header_explicit header c a b A B _ hstrip hc hna
      hb hnb hA hB hvalid
    exact ⟨hp, serves206_of_parse data header _ _ hp (by omega) (by omega)
      (by omega)⟩

/-- Witness for C9: the three range forms at concrete headers over a concrete
five-byte file. -/
theorem c9_valid_range_parsing_and_response_extent_witness :
    (stripBytesEq "bytes=-2".data = '-' :: "2".data ∧
      pyInt? "2".data = some 2 ∧ (1 : ℤ) ≤ 2 ∧
      (1 : ℤ) ≤ (([10, 20, 30, 40, 50] : List ℕ).length : ℤ) ∧
      (parse_range_header "bytes=-2".data
          (([10, 20, 30, 40, 50] : List ℕ).length : ℤ) =
        (max 0 ((([10, 20, 30, 40, 50] : List ℕ).length : ℤ) - 2),
          (([10, 20, 30, 40, 50] : List ℕ).length : ℤ) - 1) ∧
      serves206 [10, 20, 30, 40, 50] "bytes=-2".data
        (max 0 ((([10, 20, 30, 40, 50] : List ℕ).length : ℤ) - 2))
        ((([10, 20, 30, 40, 50] : List ℕ).length : ℤ) - 1))) ∧
    (stripBytesEq "bytes=3-".data = ('3' :: []) ++ ['-'] ∧ '3' ≠ '-' ∧
      pyInt? ('3' :: []) = some 3 ∧
      (3 : ℤ) ≤ (([10, 20, 30, 40, 50] : List ℕ).length : ℤ) - 1 ∧
      (parse_range_header "bytes=3-".data
          (([10, 20, 30, 40, 50] : List ℕ).length : ℤ) =
        (3, (([10, 20, 30, 40, 50] : List ℕ).length : ℤ) - 1) ∧
      serves206 [10, 20, 30, 40, 50] "bytes=3-".data 3
        ((([10, 20, 30, 40, 50] : List ℕ).length : ℤ) - 1))) ∧
    (stripBytesEq "bytes=1-3".data = ('1' :: []) ++ '-' :: ['3'] ∧
      '1' ≠ '-' ∧ '-' ∉ ('1' :: ([] : List Char)) ∧
      (['3'] : List Char) ≠ [] ∧ '-' ∉ (['3'] : List Char) ∧
      pyInt? ('1' :: []) = some 1 ∧ pyInt? ['3'] = some 3 ∧
      (1 : ℤ) ≤ min 3 ((([10, 20, 30, 40, 50] : List ℕ).length : ℤ) - 1) ∧
      (parse_range_header "bytes=1-3".data
          (([10, 20, 30, 40, 50] : List ℕ).length : ℤ) =
        (1, min 3 ((([10, 20, 30, 40, 50] : List ℕ).length : ℤ) - 1)) ∧
      serves206 [10, 20, 30, 40, 50] "bytes=1-3".data 1
        (min 3 ((([10, 20, 30, 40, 50] : List ℕ).length : ℤ) - 1)))) :=
  ⟨⟨by decide, by decide, by decide, by decide,
    c9_valid_range_parsing_and_response_extent.1 [10, 20, 30, 40, 50]
      "bytes=-2".data "2".data 2 (by decide) (by decide) (by decide)
      (by decide)⟩,
   ⟨by decide, by decide, by decide, by decide,
    c9_valid_range_parsing_and_response_extent.2.1 [10, 20, 30, 40, 50]
      "bytes=3-".data '3' [] 3 (by decide) (by decide) (by decide)
      (by decide)⟩,
   ⟨by decide, by decide, by decide, by decide, by decide, by decide,
    by decide, by decide,
    c9_valid_range_parsing_and_response_extent.2.2 [10, 20, 30, 40, 50]
      "bytes=1-3".data '1' [] ['3'] 1 3 (by decide) (by decide) (by decide)
      (by decide) (by decide) (by decide) (by decide) (by decide)⟩⟩

/-- **C8 counterexample.**  A Range header with `start > end`
(`bytes=2-1`) and an unparseable one (`bytes=nonsense`) are both answered
with status 206 over the whole file, not with the 200 full-content response
the claim requires. -/
theorem c8_counterexample_invalid_range_answered_with_206 :
    (stream_audio [7, 8, 9] (some "bytes=2-1")).status = 206 ∧
    (stream_audio [7, 8, 9] (some "bytes=2-1")).status ≠ 200 ∧
    (stream_audio [7, 8, 9] (some "bytes=2-1")).body = [7, 8, 9] ∧
    (stream_audio [7, 8, 9] (some "bytes=nonsense")).status = 206 ∧
    (stream_audio [7, 8, 9] (some "bytes=nonsense")).status ≠ 200 ∧
    (stream_audio [7, 8, 9] (some "bytes=nonsense")).body = [7, 8, 9] := by
  refine ⟨by decide, by decide, ?_, by decide, by decide, ?_⟩ <;>
    · simp only [stream_audio, stream_audio_range_eq]
      decide

/-- **C8 (amended).**  When the Range header is malformed or specifies
`start > end`, `stream_audio` degrades to the full file range, but serves it
as a 206 partial-content response (Content-Range `bytes 0-(size-1)/size`,
body the entire file), not as a 200 full-content response. -/
theorem c8_amended_invalid_range_degrades_to_full_range_206
    (data : List ℕ) (header : List Char)
    (hfb : rangeFallback header (data.length : ℤ) = true) :
    stream_audio data (some (String.mk header)) =
      { status := 206
        rangeStart := 0
        rangeStop := (data.length : ℤ) - 1
        size := (data.length : ℤ)
        contentLength := (data.length : ℤ)
        body := data } := by
  have hp : parse_range_header header (data.length : ℤ) =
      (0, (data.length : ℤ) - 1) := by
    unfold parse_range_header
    unfold rangeFallback at hfb
    cases hpf : parseRangeForms (stripBytesEq header) (data.length : ℤ) with
    | none => rfl
    | some p =>
      obtain ⟨s, e⟩ := p
      rw [hpf] at hfb
      simp only [decide_eq_true_eq] at hfb
      simp only [gt_iff_lt]
      rw [if_pos hfb]
  have hdata : (String.mk header).data = header := rfl
  have hbody : stream_audio_range data 0 ((data.length : ℤ) - 1) = data := by
    rw [stream_audio_range_eq]
    have h1 : ((data.length : ℤ) - 1 - 0 + 1).toNat = data.length := by omega
    rw [h1]
    simp
  simp only [stream_audio, hdata, hp, hbody, RangeResponse.mk.injEq]
  refine ⟨trivial, trivial, trivial, trivial, by omega, trivial⟩

/-- Witness for the amended C8: a concrete inverted range over a concrete
three-byte file. -/
theorem c8_amended_invalid_range_degrades_to_full_range_206_witness :
    rangeFallback "bytes=9-2".data (([5, 6, 7] : List ℕ).length : ℤ) = true ∧
    stream_audio [5, 6, 7] (some (String.mk "bytes=9-2".data)) =
      { status := 206
        rangeStart := 0
        rangeStop := (([5, 6, 7] : List ℕ).length : ℤ) - 1
        size := (([5, 6, 7] : List ℕ).length : ℤ)
        contentLength := (([5, 6, 7] : List ℕ).length : ℤ)
        body := [5, 6, 7] } :=
  ⟨by decide,
    c8_amended_invalid_range_degrades_to_full_range_206 [5, 6, 7]
      "bytes=9-2".data (by decide)⟩

/-! ## Job store, filesystem state, and the v2 API endpoints -/

/-- One row of the `jobs` table (database.py).  `transcription_data` and
`diarization_data` are modelled by the segment lists the services read from
them. -/
structure Job where
  uuid : String
  file_name : String
  status_code : ℤ
  file_hash : Option String
  workflow_state : String
  current_step_progress : ℤ
  transcription_data : Option (List ASRSegment)
  diarization_data : Option (List SpeakerTurn)
  error_message : Option String
  created_at : ℤ
deriving DecidableEq

/-- One row of the `export_jobs` table. -/
structure ExportJob where
  uuid : String
  job_uuid : String
  export_type : String
  status_code : ℤ
  progress_percentage : ℤ
  error_message : Option String
  file_path : Option String
  created_at : ℤ
deriving DecidableEq

/-- The database and filesystem state visible to the v2 backend.  `jobs` and
`exportJobs` are ordered newest first, so `ORDER BY created_at DESC LIMIT 1`
is `List.find?`.  A directory is a list of unique entry names; the transcript
directories associate each file name with its parsed JSON array. -/
structure SysState where
  jobs : List Job
  exportJobs : List ExportJob
  uploads : List String
  transcripts : List (String × List AlignedSegment)
  transcriptsEdited : List (String × List AlignedSegment)
  summaries : List String
  exportFiles : List String
deriving DecidableEq

/-- Delete a directory entry, tolerating absence (entry names are unique, so
`os.remove` after an exists-check is a filter). -/
def fsRemove (dir : List String) (name : String) : List String :=
  dir.filter (fun f => f ≠ name)

/-- Create-or-replace a content-free directory entry. -/
def fsTouch (dir : List String) (name : String) : List String :=
  name :: dir.filter (fun f => f ≠ name)

/-- Create-or-replace a transcript file. -/
def fsWriteAssoc (dir : List (String × List AlignedSegment)) (name : String)
    (content : List AlignedSegment) : List (String × List AlignedSegment) :=
  (name, content) :: dir.filter (fun f => f.1 ≠ name)

/-- Delete a transcript file, tolerating absence. -/
def fsRemoveAssoc (dir : List (String × List AlignedSegment)) (name : String) :
    List (String × List AlignedSegment) :=
  dir.filter (fun f => f.1 ≠ name)

/-- Index of the last `'.'` in a character list, if any (Python's
`str.rfind('.')` when nonnegative). -/
def lastDotIdx (cs : List Char) : Option ℕ :=
  match cs.reverse.findIdx? (fun c => c = '.') with
  | some j => some (cs.length - 1 - j)
  | none => none

/-- Models `os.path.splitext` on a plain file name (no directory separators):
split at the last dot unless every character before it is a dot. -/
def splitext (s : String) : String × String :=
  match lastDotIdx s.data with
  | some i =>
    if (s.data.take i).all (fun c => c = '.') then (s, "")
    else (String.mk (s.data.take i), String.mk (s.data.drop i))
  | none => (s, "")

/-- Models `pathlib.PurePath.suffix` on a plain file name: the part from the
last dot when that dot is neither the first nor the last character. -/
def pathSuffix (s : String) : String :=
  match lastDotIdx s.data with
  | some i =>
    if 0 < i ∧ i < s.data.length - 1 then String.mk (s.data.drop i) else ""
  | none => ""

/-- Models `pathlib.PurePath.name` on a forward-slash path: the last nonempty
component. -/
def pathName (s : String) : String :=
  String.mk (((splitOnChar '/' s.data).filter (fun p => p ≠ [])).getLast?.getD [])

/-- Substring test (Python's `in` on strings). -/
def hasSub (pat : List Char) : List Char → Bool
  | [] => pat.isEmpty
  | c :: rest => pat.isPrefixOf (c :: rest) || hasSub pat rest

/-- The character class kept by `re.sub(r'[^\w\s\-\.]', '', ...)` (ASCII
model of `\w` and `\s`). -/
def isSafeChar (c : Char) : Bool :=
  c.isAlphanum || c = '_' || c.isWhitespace || c = '-' || c = '.'

/-- `security.sanitize_filename`: reject empty names, path components, and
names that the character filter would change; require an extension and a
bounded length.  `Except.error n` models `HTTPException(status_code = n)`. -/
def sanitize_filename (filename : String) (max_length : ℕ) : Except ℤ String :=
  if filename = "" ∨ pyStrip filename = "" then .error 400
  else
    let name := pathName filename
    if hasSub "..".data name.data || hasSub "/".data name.data ||
        hasSub "\\".data name.data then .error 400
    else
      let safe := String.mk (name.data.filter isSafeChar)
      if safe = "" ∨ safe ≠ name then .error 400
      else if max_length < safe.length then .error 400
      else if ¬ '.' ∈ safe.data then .error 400
      else .ok safe

/-- The `while` loop of `get_unique_filename`: while the current candidate
exists (and is not the excluded path), move to `<name> (Copy <counter>)<ext>`.
The loop is bounded by fuel `|dir| + 2`, which the caller supplies; a real
directory is finite so the source loop terminates within that many probes of
distinct names. -/
def uniqueLoop (dir : List String) (exclude : Option String)
    (name ext : String) : ℕ → ℕ → String → String
  | 0, _, current => current
  | fuel + 1, counter, current =>
    if current ∈ dir ∧ some current ≠ exclude then
      uniqueLoop dir exclude name ext fuel (counter + 1)
        (name ++ " (Copy " ++ toString counter ++ ")" ++ ext)
    else current

/-- `utils/file_utils.get_unique_filename`: return the desired name unless it
collides (collisions with `exclude_path` do not count), else probe
`<name> (Copy)<ext>`, `<name> (Copy 2)<ext>`, ....  Paths are compared within
the one directory, so the exclusion is modelled on entry names. -/
def get_unique_filename (dir : List String) (desired : String)
    (exclude : Option String) : String :=
  if desired ∈ dir ∧ some desired ≠ exclude then
    let p := splitext desired
    uniqueLoop dir exclude p.1 p.2 (dir.length + 2) 2 (p.1 ++ " (Copy)" ++ p.2)
  else desired

/-- `database.get_job`. -/
def get_job (st : SysState) (uuid : String) : Option Job :=
  st.jobs.find? (fun j => j.uuid = uuid)

/-- `database.get_job_by_hash`: the most recent row with the hash. -/
def get_job_by_hash (st : SysState) (h : String) : Option Job :=
  st.jobs.find? (fun j => j.file_hash = some h)

/-- The row INSERTed by `database.add_job`: stage data and error are NULL,
progress starts at 0, `created_at` defaults to now. -/
def jobRow (now : ℤ) (uuid file_name : String) (status_code : ℤ)
    (file_hash : Option String) (workflow_state : String) : Job :=
  { uuid := uuid
    file_name := file_name
    status_code := status_code
    file_hash := file_hash
    workflow_state := workflow_state
    current_step_progress := 0
    transcription_data := none
    diarization_data := none
    error_message := none
    created_at := now }

/-- `database.add_job`: INSERT the row, newest first. -/
def add_job (st : SysState) (now : ℤ) (uuid file_name : String)
    (status_code : ℤ) (file_hash : Option String) (workflow_state : String) :
    SysState :=
  { st with jobs :=
      jobRow now uuid file_name status_code file_hash workflow_state ::
        st.jobs }

/-- `JobRepository.create`: `add_job(uuid, file_name, 200, file_hash,
workflow_state)` — note the hard-coded status 200. -/
def JobRepository.create (st : SysState) (now : ℤ) (uuid file_name : String)
    (file_hash : Option String) (workflow_state : String) : SysState :=
  add_job st now uuid file_name 200 file_hash workflow_state

/-- `database.update_file_name`. -/
def update_file_name (st : SysState) (uuid new_name : String) : SysState :=
  { st with jobs := st.jobs.map (fun j =>
      if j.uuid = uuid then { j with file_name := new_name } else j) }

/-- A task handed to `BackgroundTasks.add_task`. -/
inductive BackgroundTask where
  | transcribeTask (uuid file_path model_name : String)
  | diarizeTask (uuid file_path : String)
  | alignTask (uuid file_name : String)
  | exportTask (export_uuid job_uuid export_type : String)
deriving DecidableEq

/-- `models.WorkflowActionResponse`. -/
structure WorkflowActionResponse where
  uuid : String
  workflow_state : String
  status_code : ℤ
  message : String
deriving DecidableEq

/-- `models.JobResponse`. -/
structure JobResponse where
  uuid : String
  file_name : String
  status_code : ℤ
deriving DecidableEq

/-- `models.ExportJobResponse`. -/
structure ExportJobResponse where
  export_uuid : String
  job_uuid : String
  status : String
  status_code : ℤ
  message : String
deriving DecidableEq

/-- `POST /jobs/{uuid}/transcriptions` (jobs.py lines 265-294): 404 when the
job is missing; otherwise enqueue the transcription task and reply 202.  The
job's `workflow_state` is never consulted. -/
def start_transcription (st : SysState) (uuid model_name : String) :
    Except ℤ (WorkflowActionResponse × List BackgroundTask) :=
  match get_job st uuid with
  | none => .error 404
  | some job =>
    .ok ({ uuid := uuid
           workflow_state := "transcribing"
           status_code := 202
           message := "Transcription started" },
         [.transcribeTask uuid job.file_name model_name])

/-- `POST /jobs/{uuid}/diarizations` (jobs.py lines 318-345): 404 when the
job is missing; otherwise enqueue the diarization task and reply 202. -/
def start_diarization (st : SysState) (uuid : String) :
    Except ℤ (WorkflowActionResponse × List BackgroundTask) :=
  match get_job st uuid with
  | none => .error 404
  | some job =>
    .ok ({ uuid := uuid
           workflow_state := "diarizing"
           status_code := 202
           message := "Diarization started" },
         [.diarizeTask uuid job.file_name])

/-- `POST /jobs/{uuid}/alignments` (jobs.py lines 369-395): 404 when the job
is missing; otherwise enqueue the alignment task and reply 202. -/
def start_alignment (st : SysState) (uuid : String) :
    Except ℤ (WorkflowActionResponse × List BackgroundTask) :=
  match get_job st uuid with
  | none => .error 404
  | some job =>
    .ok ({ uuid := uuid
           workflow_state := "aligning"
           status_code := 202
           message := "Alignment started" },
         [.alignTask uuid (splitext job.file_name).1])

/-- The sanitize-with-fallback step of `AudioService.upload_audio` (lines
74-82): on a sanitization failure, fall back to
`job_uuid[:8] + (suffix or ".wav")`. -/
def safeFilename (job_uuid upload_name : String) : String :=
  match sanitize_filename upload_name 255 with
  | .ok s => s
  | .error _ =>
    let ext := pathSuffix upload_name
    (strTake job_uuid 8) ++ (if ext = "" then ".wav" else ext)

/-- `POST /jobs` (jobs.py lines 54-125 together with
`AudioService.upload_audio` and `check_duplicate`): enforce the size cap,
hash the uploaded bytes, sanitize and uniquify the file name, save the bytes;
on a hash match delete the saved duplicate and return the existing job;
otherwise convert non-WAV input via the external transcoder and insert the
new row through `JobRepository.create`.  `hashFn` abstracts the SHA-256 hex
digest of the uploaded bytes; `convOk` abstracts the transcoder outcome. -/
def create_job (hashFn : List ℕ → String) (convOk : Bool)
    (max_file_size : ℕ) (now : ℤ) (st : SysState)
    (job_uuid upload_name : String) (content : List ℕ) :
    Except ℤ (SysState × JobResponse) :=
  if max_file_size < content.length then .error 413
  else
    let file_hash := hashFn content
    let filename := get_unique_filename st.uploads
      (safeFilename job_uuid upload_name) none
    let st₁ := { st with uploads := fsTouch st.uploads filename }
    match get_job_by_hash st₁ file_hash with
    | some existing =>
      let st₂ :=
        if filename ∈ st₁.uploads
        then { st₁ with uploads := fsRemove st₁.uploads filename }
        else st₁
      .ok (st₂, { uuid := existing.uuid
                  file_name := existing.file_name
                  status_code := existing.status_code })
    | none =>
      if strEndsWith (pyLower filename) ".wav" then
        .ok (JobRepository.create st₁ now job_uuid filename (some file_hash)
              "uploaded",
          { uuid := job_uuid, file_name := filename, status_code := 202 })
      else if convOk then
        let wav := (splitext filename).1 ++ ".wav"
        let st₂ := { st₁ with uploads := fsTouch st₁.uploads wav }
        let st₃ :=
          if filename ∈ st₂.uploads
          then { st₂ with uploads := fsRemove st₂.uploads filename }
          else st₂
        .ok (JobRepository.create st₃ now job_uuid wav (some file_hash)
              "uploaded",
          { uuid := job_uuid, file_name := wav, status_code := 202 })
      else .error 500

/-- `PATCH /jobs/{uuid}` (jobs.py lines 190-214): 404 on a missing job;
otherwise resolve `get_unique_filename(upload_dir, new_name)` — with no
`exclude_path` — store it as the job's `file_name` and return it.  Nothing is
renamed on disk. -/
def rename_job (st : SysState) (uuid new_name : String) :
    Except ℤ (SysState × String) :=
  match get_job st uuid with
  | none => .error 404
  | some _ =>
    let unique := get_unique_filename st.uploads new_name none
    .ok (update_file_name st uuid unique, unique)

/-- `SummaryService.delete_summary`: remove `summaries/<uuid>.txt` when it
exists. -/
def delete_summary (st : SysState) (uuid : String) : SysState × Bool :=
  if (uuid ++ ".txt") ∈ st.summaries then
    ({ st with summaries := fsRemove st.summaries (uuid ++ ".txt") }, true)
  else (st, false)

/-- `PATCH /jobs/{uuid}/transcripts` (transcripts.py lines 90-132): 404 on a
missing job; otherwise write the request body to
`transcripts_edited/<base>.json`, then delete the cached summary. -/
def update_transcript (st : SysState) (uuid : String)
    (transcript : List AlignedSegment) : Except ℤ SysState :=
  match get_job st uuid with
  | none => .error 404
  | some job =>
    let base := (splitext job.file_name).1
    let edited := fsWriteAssoc st.transcriptsEdited (base ++ ".json") transcript
    let st₁ := { st with transcriptsEdited := edited }
    .ok (delete_summary st₁ uuid).1

/-- `SpeakerService.update_speaker_names`: read the original transcript
(`transcript_dir`), substitute mapped speaker labels, write the result to the
edited directory.  A missing original raises, which the router surfaces as
500. -/
def update_speaker_names (st : SysState) (base : String)
    (mapping : List (String × String)) :
    Except ℤ (SysState × List AlignedSegment) :=
  match st.transcripts.lookup (base ++ ".json") with
  | none => .error 500
  | some tr =>
    let tr' := tr.map (fun e =>
      match mapping.lookup e.speaker with
      | some n => { e with speaker := n }
      | none => e)
    let edited := fsWriteAssoc st.transcriptsEdited (base ++ ".json") tr'
    .ok ({ st with transcriptsEdited := edited }, tr')

/-- `PATCH /jobs/{uuid}/speakers` (speakers.py lines 30-73): 404 on a missing
job; otherwise apply the rename through `SpeakerService`, then delete the
cached summary. -/
def update_speakers (st : SysState) (uuid : String)
    (mapping : List (String × String)) :
    Except ℤ (SysState × List AlignedSegment) :=
  match get_job st uuid with
  | none => .error 404
  | some job =>
    match update_speaker_names st (splitext job.file_name).1 mapping with
    | .error e => .error e
    | .ok (st₁, tr') => .ok ((delete_summary st₁ uuid).1, tr')

/-- `database.add_export_job`. -/
def add_export_job (st : SysState) (now : ℤ)
    (export_uuid job_uuid export_type : String) (status_code : ℤ) : SysState :=
  { st with exportJobs :=
      { uuid := export_uuid
        job_uuid := job_uuid
        export_type := export_type
        status_code := status_code
        progress_percentage := 0
        error_message := none
        file_path := none
        created_at := now } :: st.exportJobs }

/-- `POST /jobs/{uuid}/export-jobs` (export_jobs.py lines 157-204): 404 when
the parent job is missing; otherwise insert the ExportJob with status 202 and
enqueue the background export task.  The parent's `workflow_state` is never
consulted. -/
def create_export_job (st : SysState) (now : ℤ)
    (uuid export_uuid fmt : String) :
    Except ℤ (SysState × ExportJobResponse × List BackgroundTask) :=
  match get_job st uuid with
  | none => .error 404
  | some _ =>
    .ok (add_export_job st now export_uuid uuid fmt 202,
      { export_uuid := export_uuid
        job_uuid := uuid
        status := "processing"
        status_code := 202
        message := "Export job created successfully" },
      [.exportTask export_uuid uuid fmt])

/-- `database.cleanup_old_jobs`: select the rows older than the window,
delete them (by uuid; uuids are unique so this is the same filter), and
return the selected rows. -/
def cleanup_old_jobs (st : SysState) (now max_age_hours : ℤ) :
    SysState × List Job :=
  let keep := st.jobs.filter (fun j => !decide (j.created_at < now - max_age_hours))
  let old := st.jobs.filter (fun j => decide (j.created_at < now - max_age_hours))
  ({ st with jobs := keep }, old)

/-- `database.cleanup_old_export_jobs`. -/
def cleanup_old_export_jobs (st : SysState) (now max_age_hours : ℤ) :
    SysState × List ExportJob :=
  let keep :=
    st.exportJobs.filter (fun e => !decide (e.created_at < now - max_age_hours))
  let old :=
    st.exportJobs.filter (fun e => decide (e.created_at < now - max_age_hours))
  ({ st with exportJobs := keep }, old)

/-- `CleanupService.cleanup_expired_files` (cleanup_service.py lines 42-107):
bulk-delete expired jobs, and for each returned row delete its audio file and
its canonical transcript `transcripts/<base>.json`; then bulk-delete expired
export jobs and delete their `file_path` artifacts. -/
def cleanup_expired_files (st : SysState) (now : ℤ)
    (job_retention_hours export_retention_hours : ℤ) : SysState :=
  let p₁ := cleanup_old_jobs st now job_retention_hours
  let st₂ := p₁.2.foldl (fun s job =>
    if job.file_name ≠ "" then
      let s₁ := { s with uploads := fsRemove s.uploads job.file_name }
      let tr := fsRemoveAssoc s₁.transcripts ((splitext job.file_name).1 ++ ".json")
      { s₁ with transcripts := tr }
    else s) p₁.1
  let p₂ := cleanup_old_export_jobs st₂ now export_retention_hours
  p₂.2.foldl (fun s e =>
    match e.file_path with
    | some p => if p ≠ "" then { s with exportFiles := fsRemove s.exportFiles p }
                else s
    | none => s) p₂.1

/-! ## Concrete states used to evaluate the endpoints -/

/-- A job that has only been uploaded (fresh v2 ingest). -/
def jobUploaded : Job :=
  jobRow 0 "job-uploaded" "meeting.wav" 200 (some "hash-uploaded") "uploaded"

/-- A job that has run the full pipeline. -/
def jobCompleted : Job :=
  { uuid := "job-completed"
    file_name := "done.wav"
    status_code := 200
    file_hash := some "hash-completed"
    workflow_state := "completed"
    current_step_progress := 100
    transcription_data := some []
    diarization_data := some []
    error_message := none
    created_at := 0 }

/-- A store holding one `uploaded` and one `completed` job, with their audio
files and the completed job's canonical transcript. -/
def stPre : SysState :=
  { jobs := [jobUploaded, jobCompleted]
    exportJobs := []
    uploads := ["meeting.wav", "done.wav"]
    transcripts := [("done.json", [])]
    transcriptsEdited := []
    summaries := []
    exportFiles := [] }

/-- An empty store. -/
def emptySys : SysState :=
  { jobs := []
    exportJobs := []
    uploads := []
    transcripts := []
    transcriptsEdited := []
    summaries := []
    exportFiles := [] }

/-- **C1.**  The v2 stage-start endpoints verify only that the job exists:
evaluating them on jobs in the wrong workflow state shows each request is
accepted with 202 and its task enqueued — no 4xx "invalid workflow state
transition" is produced and no precondition is checked (the legacy
implementation in `src/backend/main.py` rejects these with 400). -/
theorem c1_stage_start_endpoints_skip_precondition_check :
    jobUploaded.workflow_state = "uploaded" ∧
    jobCompleted.workflow_state = "completed" ∧
    start_alignment stPre "job-uploaded" =
      .ok ({ uuid := "job-uploaded"
             workflow_state := "aligning"
             status_code := 202
             message := "Alignment started" },
           [.alignTask "job-uploaded" "meeting"]) ∧
    start_diarization stPre "job-uploaded" =
      .ok ({ uuid := "job-uploaded"
             workflow_state := "diarizing"
             status_code := 202
             message := "Diarization started" },
           [.diarizeTask "job-uploaded" "meeting.wav"]) ∧
    start_transcription stPre "job-completed" "turbo" =
      .ok ({ uuid := "job-completed"
             workflow_state := "transcribing"
             status_code := 202
             message := "Transcription started" },
           [.transcribeTask "job-completed" "done.wav" "turbo"]) :=
  ⟨rfl, rfl, rfl, rfl, rfl⟩

/-- **C4.**  A fresh non-duplicate ingest replies 202, but the row persisted
through `JobRepository.create` carries `status_code = 200`, not the claimed
202 (the legacy `main.py` ingest persists 202).  All other claimed fields
(`workflow_state`, `file_hash`, empty stage data) hold. -/
theorem c4_persisted_ingest_row_has_status_200_not_202 :
    create_job (fun _ => "deadbeef") true 100 0 emptySys "u1" "a.wav"
        [1, 2, 3] =
      .ok ({ jobs := [jobRow 0 "u1" "a.wav" 200 (some "deadbeef") "uploaded"]
             exportJobs := []
             uploads := ["a.wav"]
             transcripts := []
             transcriptsEdited := []
             summaries := []
             exportFiles := [] },
           { uuid := "u1", file_name := "a.wav", status_code := 202 }) ∧
    (jobRow 0 "u1" "a.wav" 200 (some "deadbeef") "uploaded").workflow_state =
      "uploaded" ∧
    (jobRow 0 "u1" "a.wav" 200 (some "deadbeef") "uploaded").file_hash =
      some "deadbeef" ∧
    (jobRow 0 "u1" "a.wav" 200 (some "deadbeef")
      "uploaded").transcription_data = none ∧
    (jobRow 0 "u1" "a.wav" 200 (some "deadbeef")
      "uploaded").diarization_data = none ∧
    (jobRow 0 "u1" "a.wav" 200 (some "deadbeef") "uploaded").status_code =
      200 ∧
    (jobRow 0 "u1" "a.wav" 200 (some "deadbeef") "uploaded").status_code ≠
      202 :=
  ⟨rfl, rfl, rfl, rfl, rfl, rfl, by decide⟩

/-- **C7.**  `create_export_job` accepts a parent job whose workflow_state is
`uploaded` (not `completed`): the ExportJob row is inserted with status 202
and the background export task is enqueued (the legacy `main.py` endpoint
rejects a non-completed parent with 400). -/
theorem c7_export_job_created_for_uncompleted_parent :
    jobUploaded.workflow_state ≠ "completed" ∧
    create_export_job stPre 5 "job-uploaded" "exp-1" "pdf" =
      .ok ({ stPre with exportJobs :=
              [{ uuid := "exp-1"
                 job_uuid := "job-uploaded"
                 export_type := "pdf"
                 status_code := 202
                 progress_percentage := 0
                 error_message := none
                 file_path := none
                 created_at := 5 }] },
           { export_uuid := "exp-1"
             job_uuid := "job-uploaded"
             status := "processing"
             status_code := 202
             message := "Export job created successfully" },
           [.exportTask "exp-1" "job-uploaded" "pdf"]) :=
  ⟨by decide, rfl⟩

/-- An expired job (created at hour 0) with every artifact class present. -/
def stExpired : SysState :=
  { jobs := [jobRow 0 "j1" "m.wav" 200 (some "h") "completed"]
    exportJobs := []
    uploads := ["m.wav"]
    transcripts := [("m.json", [])]
    transcriptsEdited := [("m.json", [])]
    summaries := ["j1.txt"]
    exportFiles := [] }

/-- **C5.**  Running the cleanup sweep at hour 13 with a 12-hour retention
window deletes the expired job's row, its audio file and its canonical
transcript — but its edited transcript and its cached summary remain on
disk, contradicting the claim that all materialized artifacts are deleted
(the legacy `main.py` sweep removes both). -/
theorem c5_cleanup_sweep_leaves_edited_transcript_and_summary :
    cleanup_expired_files stExpired 13 12 24 =
      { jobs := []
        exportJobs := []
        uploads := []
        transcripts := []
        transcriptsEdited := [("m.json", [])]
        summaries := ["j1.txt"]
        exportFiles := [] } ∧
    ("m.json", ([] : List AlignedSegment)) ∈
      (cleanup_expired_files stExpired 13 12 24).transcriptsEdited ∧
    "j1.txt" ∈ (cleanup_expired_files stExpired 13 12 24).summaries :=
  ⟨rfl, by decide, by decide⟩

/-- **C10.**  Renaming a job to its own current file name is not a no-op:
the v2 `rename_job` calls `get_unique_filename` without `exclude_path`, so
the job's own file collides with itself and the stored name becomes
`meeting (Copy).wav` (the legacy `main.py` passes
`exclude_path=old_audio_path`, which makes the rename a no-op). -/
theorem c10_rename_to_own_name_appends_copy_suffix :
    rename_job stPre "job-uploaded" "meeting.wav" =
      .ok ({ stPre with jobs :=
              [{ jobUploaded with file_name := "meeting (Copy).wav" },
               jobCompleted] },
           "meeting (Copy).wav") ∧
    "meeting (Copy).wav" ≠ "meeting.wav" ∧
    get_job ({ stPre with jobs :=
        [{ jobUploaded with file_name := "meeting (Copy).wav" },
         jobCompleted] }) "job-uploaded" =
      some { jobUploaded with file_name := "meeting (Copy).wav" } :=
  ⟨rfl, by decide, rfl⟩

/-- After `delete_summary`, the job's cached summary file is gone. -/
lemma delete_summary_removes (st : SysState) (uuid : String) :
    (uuid ++ ".txt") ∉ (delete_summary st uuid).1.summaries := by
  unfold delete_summary
  by_cases h : (uuid ++ ".txt") ∈ st.summaries
  · rw [if_pos h]
    simp [fsRemove]
  · rw [if_neg h]
    exact h

/-- **C6.**  Every successful transcript edit and every successful speaker
rename evicts the derived summary before returning: the summary cache file
`summaries/<uuid>.txt` does not exist in the resulting state. -/
theorem c6_user_mutations_evict_summary_cache (st : SysState) (uuid : String)
    (transcript : List AlignedSegment) (mapping : List (String × String)) :
    (∀ st₁, update_transcript st uuid transcript = .ok st₁ →
      (uuid ++ ".txt") ∉ st₁.summaries) ∧
    (∀ st₂ tr', update_speakers st uuid mapping = .ok (st₂, tr') →
      (uuid ++ ".txt") ∉ st₂.summaries) := by
  constructor
  · intro st₁ h
    unfold update_transcript at h
    cases hj : get_job st uuid with
    | none =>
      simp only [hj] at h
      exact Except.noConfusion h
    | some job =>
      simp only [hj, Except.ok.injEq] at h
      rw [← h]
      exact delete_summary_removes _ _
  · intro st₂ tr' h
    unfold update_speakers at h
    cases hj : get_job st uuid with
    | none =>
      simp only [hj] at h
      exact Except.noConfusion h
    | some job =>
      simp only [hj] at h
      cases hu : update_speaker_names st (splitext job.file_name).1 mapping with
      | error e =>
        simp only [hu] at h
        exact Except.noConfusion h
      | ok p =>
        obtain ⟨st₁', tr''⟩ := p
        simp only [hu, Except.ok.injEq, Prod.mk.injEq] at h
        rw [← h.1]
        exact delete_summary_removes _ _

/-- A completed job with a canonical transcript and a cached summary. -/
def stEdit : SysState :=
  { jobs := [jobRow 0 "job-edit" "m.wav" 200 (some "h") "completed"]
    exportJobs := []
    uploads := ["m.wav"]
    transcripts := [("m.json", [⟨"SPEAKER_00", "hi", "0.00", "1.00"⟩])]
    transcriptsEdited := []
    summaries := ["job-edit.txt"]
    exportFiles := [] }

/-- Witness for C6: a concrete transcript edit and a concrete speaker rename
on `stEdit`, each leaving no summary file. -/
theorem c6_user_mutations_evict_summary_cache_witness :
    (update_transcript stEdit "job-edit" [] =
      .ok ({ stEdit with
              transcriptsEdited := [("m.json", [])]
              summaries := [] }) ∧
      ("job-edit" ++ ".txt") ∉
        ({ stEdit with
            transcriptsEdited := [("m.json", [])]
            summaries := [] } : SysState).summaries) ∧
    (update_speakers stEdit "job-edit" [("SPEAKER_00", "Alice")] =
      .ok ({ stEdit with
              transcriptsEdited := [("m.json", [⟨"Alice", "hi", "0.00", "1.00"⟩])]
              summaries := [] },
           [⟨"Alice", "hi", "0.00", "1.00"⟩]) ∧
      ("job-edit" ++ ".txt") ∉
        ({ stEdit with
            transcriptsEdited := [("m.json", [⟨"Alice", "hi", "0.00", "1.00"⟩])]
            summaries := [] } : SysState).summaries) :=
  ⟨⟨rfl, (c6_user_mutations_evict_summary_cache stEdit "job-edit" []
      [("SPEAKER_00", "Alice")]).1 _ rfl⟩,
   ⟨rfl, (c6_user_mutations_evict_summary_cache stEdit "job-edit" []
      [("SPEAKER_00", "Alice")]).2 _ _ rfl⟩⟩

/-- Saving a fresh file and then deleting it restores the directory. -/
lemma fsTouch_then_remove (dir : List String) (f : String) (h : f ∉ dir) :
    fsRemove (fsTouch dir f) f = dir := by
  have h1 : dir.filter (fun x => x ≠ f) = dir := by
    apply List.filter_eq_self.mpr
    intro x hx
    simp only [decide_eq_true_eq]
    exact fun heq => h (heq ▸ hx)
  simp only [fsTouch, fsRemove]
  rw [List.filter_cons_of_neg (by simp), h1, h1]

/-- When no stored job carries the upload's hash, `create_job` inserts
exactly one new row — status 200, state `uploaded`, the upload's hash — on
top of the store, touches only the upload directory, and answers 202 with
the new job's id. -/
lemma create_job_fresh_insert
    (hashFn : List ℕ → String) (convOk : Bool) (mfs : ℕ) (now : ℤ)
    (st : SysState) (u name : String) (content : List ℕ)
    (st' : SysState) (r : JobResponse)
    (hnodup : ∀ j ∈ st.jobs, j.file_hash ≠ some (hashFn content))
    (h : create_job hashFn convOk mfs now st u name content = .ok (st', r)) :
    st'.jobs =
      jobRow now u r.file_name 200 (some (hashFn content)) "uploaded" ::
        st.jobs ∧
    r.uuid = u ∧ r.status_code = 202 ∧
    st'.exportJobs = st.exportJobs ∧ st'.transcripts = st.transcripts ∧
    st'.transcriptsEdited = st.transcriptsEdited ∧
    st'.summaries = st.summaries ∧ st'.exportFiles = st.exportFiles := by
  unfold create_job at h
  by_cases hs : mfs < content.length
  · rw [if_pos hs] at h
    exact Except.noConfusion h
  · rw [if_neg hs] at h
    have hfind : ∀ up : List String,
        get_job_by_hash { st with uploads := up } (hashFn content) = none := by
      intro up
      unfold get_job_by_hash
      apply List.find?_eq_none.mpr
      intro j hj
      simp only [decide_eq_true_eq]
      exact hnodup j hj
    simp only [hfind] at h
    by_cases hw : strEndsWith
        (pyLower (get_unique_filename st.uploads (safeFilename u name) none))
        ".wav" = true
    · rw [if_pos hw] at h
      simp only [Except.ok.injEq, Prod.mk.injEq] at h
      obtain ⟨hst, hr⟩ := h
      subst hst
      subst hr
      exact ⟨rfl, rfl, rfl, rfl, rfl, rfl, rfl, rfl⟩
    · rw [if_neg hw] at h
      by_cases hc : convOk
      · rw [if_pos hc] at h
        simp only [Except.ok.injEq, Prod.mk.injEq] at h
        obtain ⟨hst, hr⟩ := h
        subst hst
        subst hr
        refine ⟨?_, rfl, rfl, ?_, ?_, ?_, ?_, ?_⟩ <;>
          · split <;> rfl
      · rw [if_neg hc] at h
        exact Except.noConfusion h

/-- **C2.**  Uploading the same bytes twice creates at most one Job: the
first call (no stored job with the hash) inserts exactly one row; the second
call finds that job by the hash of the uploaded bytes, deletes the file it
had just saved, inserts nothing — the state is returned unchanged — and
replies with the existing job's id. -/
theorem c2_identical_uploads_return_existing_job
    (hashFn : List ℕ → String) (convOk : Bool) (mfs : ℕ) (now₁ now₂ : ℤ)
    (st₀ : SysState) (u₁ u₂ name₁ name₂ : String) (content : List ℕ)
    (st₁ : SysState) (r₁ : JobResponse)
    (hnodup : ∀ j ∈ st₀.jobs, j.file_hash ≠ some (hashFn content))
    (h₁ : create_job hashFn convOk mfs now₁ st₀ u₁ name₁ content =
      .ok (st₁, r₁))
    (hsize : ¬ mfs < content.length)
    (hfresh : get_unique_filename st₁.uploads (safeFilename u₂ name₂) none ∉
      st₁.uploads) :
    st₁.jobs.length = st₀.jobs.length + 1 ∧
    create_job hashFn convOk mfs now₂ st₁ u₂ name₂ content =
      .ok (st₁, { uuid := r₁.uuid
                  file_name := r₁.file_name
                  status_code := 200 }) := by
  obtain ⟨hjobs, huuid, -, -, -, -, -, -⟩ :=
    create_job_fresh_insert hashFn convOk mfs now₁ st₀ u₁ name₁ content st₁ r₁
      hnodup h₁
  constructor
  · rw [hjobs]
    simp
  · unfold create_job
    rw [if_neg hsize]
    set fn₂ := get_unique_filename st₁.uploads (safeFilename u₂ name₂) none
      with hfn₂
    have hfind : get_job_by_hash { st₁ with uploads := fsTouch st₁.uploads fn₂ }
        (hashFn content) =
        some (jobRow now₁ u₁ r₁.file_name 200 (some (hashFn content))
          "uploaded") := by
      unfold get_job_by_hash
      show st₁.jobs.find? _ = _
      rw [hjobs]
      rw [List.find?_cons_of_pos _ (by simp [jobRow])]
    simp only [hfind]
    rw [if_pos (show fn₂ ∈ fsTouch st₁.uploads fn₂ by
      unfold fsTouch; exact List.mem_cons_self _ _)]
    rw [fsTouch_then_remove _ _ hfresh]
    rw [huuid]
    rfl

/-- The store after a first upload of bytes hashing to `"deadbeef"`. -/
def stAfterFirstUpload : SysState :=
  { jobs := [jobRow 0 "u1" "a.wav" 200 (some "deadbeef") "uploaded"]
    exportJobs := []
    uploads := ["a.wav"]
    transcripts := []
    transcriptsEdited := []
    summaries := []
    exportFiles := [] }

/-- Witness for C2: two concrete uploads of the same bytes into an empty
store; the second returns the first job's id and leaves the state
untouched. -/
theorem c2_identical_uploads_return_existing_job_witness :
    (∀ j ∈ emptySys.jobs,
      j.file_hash ≠ some ((fun _ : List ℕ => "deadbeef") [1, 2, 3])) ∧
    create_job (fun _ => "deadbeef") true 100 0 emptySys "u1" "a.wav"
      [1, 2, 3] = .ok (stAfterFirstUpload,
        { uuid := "u1", file_name := "a.wav", status_code := 202 }) ∧
    ¬ (100 : ℕ) < ([1, 2, 3] : List ℕ).length ∧
    get_unique_filename stAfterFirstUpload.uploads (safeFilename "u2" "a.wav")
      none ∉ stAfterFirstUpload.uploads ∧
    (stAfterFirstUpload.jobs.length = emptySys.jobs.length + 1 ∧
    create_job (fun _ => "deadbeef") true 100 1 stAfterFirstUpload "u2"
      "a.wav" [1, 2, 3] =
      .ok (stAfterFirstUpload,
        { uuid := "u1", file_name := "a.wav", status_code := 200 })) :=
  ⟨by simp [emptySys], rfl, by decide, by decide,
    c2_identical_uploads_return_existing_job (fun _ => "deadbeef") true 100
      0 1 emptySys "u1" "u2" "a.wav" "a.wav" [1, 2, 3] stAfterFirstUpload
      { uuid := "u1", file_name := "a.wav", status_code := 202 }
      (by simp [emptySys]) rfl (by decide) (by decide)⟩

end MeetMemo
